import Mathlib

/-
Verification of the envelope-layout program (src/envelope/envelope.py)
against its natural-language specification.

Shallow embedding: all floating-point arithmetic of the program is modelled
exactly over ℚ (every numeric constant of the program — 72, 0.25, 1.5, 0.38,
the envelope dimensions and font sizes — is a short decimal literal, so every
layout computation of the source is exact in ℚ); the cairo drawing calls made
by write_envelope_pdf are modelled as an explicit command trace; tomllib
documents are modelled as association lists of TOML values, with address
arrays at their string element type as the program's data model prescribes.
-/

namespace EnvelopeVerif

/-! ### Constants of the source (envelope.py lines 27-41) -/

/-- ENVELOPE_SIZES: the fixed mapping of named commercial envelope sizes to
their "WxH" inch-dimension strings, as an association list in source order. -/
def ENVELOPE_SIZES : List (String × String) :=
  [ ("#5", "5.5x3.125"),
    ("#6.25", "6x3.5"),
    ("#6.75", "6.5x3.625"),
    ("#7", "6.75x3.75"),
    ("#7.75", "7.5x3.93750"),
    ("#8.625", "8.625x3.625"),
    ("#9", "8.875x3.875"),
    ("#10", "9.5x4.125"),
    ("#11", "10.375x4.5"),
    ("#12", "11x4.75"),
    ("#14", "11.5x5") ]

/-- FONT_FACE default ("mono"). -/
def FONT_FACE : String := "mono"

/-- FONT_SIZE default (14 points). -/
def FONT_SIZE : ℚ := 14

/-! ### The cairo drawing calls, as a command trace -/

/-- One cairo call issued by write_envelope_pdf, in order. -/
inductive DrawCmd where
  | selectFontFace (face : String)
  | setFontSize (size : ℚ)
  | moveTo (x y : ℚ)
  | showText (t : String)
  | showPage
  | flush
  | finish
deriving DecidableEq

/-- The PDF surface dimensions (points) together with the cairo calls issued
on it, in program order. -/
structure RenderTrace where
  surfaceWidth : ℚ
  surfaceHeight : ℚ
  cmds : List DrawCmd
deriving DecidableEq

/-- The `for line in addr: ctx.move_to(x, y); ctx.show_text(line); y += font_size`
loops of write_envelope_pdf (lines 75-78 and 83-86). -/
def drawLines (x s : ℚ) : ℚ → List String → List DrawCmd
  | _, [] => []
  | y, line :: rest => DrawCmd.moveTo x y :: DrawCmd.showText line :: drawLines x s (y + s) rest

/-- Embedding of write_envelope_pdf (envelope.py lines 44-90): width and
height are in inches; the emitted cairo calls are returned as a trace. -/
def write_envelope_pdf (from_addr to_addr : List String) (width height : ℚ)
    (font_face : String) (font_size : ℚ) : RenderTrace :=
  let INCHES_TO_POINTS : ℚ := 72
  let MARGIN : ℚ := 0.25
  let pt_width := width * INCHES_TO_POINTS
  let pt_height := height * INCHES_TO_POINTS
  let pt_margin := MARGIN * INCHES_TO_POINTS
  { surfaceWidth := pt_width
    surfaceHeight := pt_height
    cmds :=
      DrawCmd.selectFontFace font_face :: DrawCmd.setFontSize font_size ::
        (drawLines pt_margin font_size ((pt_margin * 1.5) + font_size) from_addr ++
          (drawLines (pt_width * 0.38) font_size
            ((pt_height / 2) - (font_size * (((to_addr.length : ℚ)) - 1) / 2)) to_addr ++
            [DrawCmd.showPage, DrawCmd.flush, DrawCmd.finish])) }

/-- Extracts, in order, every text placement of a trace: each move_to
immediately followed by a show_text yields (x, y, text). -/
def textPlacements : List DrawCmd → List (ℚ × ℚ × String)
  | DrawCmd.moveTo x y :: DrawCmd.showText t :: rest => (x, y, t) :: textPlacements rest
  | _ :: rest => textPlacements rest
  | [] => []

/-! ### Python primitives used by _main's size parsing -/

/-- Numeric value of a digit string (most significant first). -/
def digitsVal (ds : List Char) : Nat :=
  ds.foldl (fun a c => 10 * a + (c.toNat - '0'.toNat)) 0

/-- Value of a decimal mantissa with integer digits ip and fraction digits fp. -/
def mantVal (ip fp : List Char) : ℚ :=
  (digitsVal ip : ℚ) + (digitsVal fp : ℚ) / (10 : ℚ) ^ fp.length

/-- Strip one leading sign character, returning the sign factor. -/
def stripSign (cs : List Char) : ℚ × List Char :=
  match cs with
  | c :: r => if c = '-' then (-1, r) else if c = '+' then (1, r) else (1, c :: r)
  | [] => (1, [])

/-- Strip one leading exponent sign, returning the sign factor. -/
def stripExpSign (cs : List Char) : Int × List Char :=
  match cs with
  | c :: r => if c = '-' then (-1, r) else if c = '+' then (1, r) else (1, c :: r)
  | [] => (1, [])

/-- Parse an exponent suffix (what follows 'e'/'E'): optional sign then one
or more digits consuming the whole remainder. -/
def expVal? (cs : List Char) : Option Int :=
  let p := stripExpSign cs
  let ed := p.2.takeWhile Char.isDigit
  let rest := p.2.dropWhile Char.isDigit
  if ed.isEmpty || !rest.isEmpty then none
  else some (p.1 * (digitsVal ed : Int))

/-- Parse a decimal mantissa at the head of cs: integer digits, then an
optional '.' with fraction digits; at least one digit in total. Returns the
value and the unconsumed remainder. -/
def mant? (cs : List Char) : Option (ℚ × List Char) :=
  let ip := cs.takeWhile Char.isDigit
  let cs1 := cs.dropWhile Char.isDigit
  match cs1 with
  | '.' :: cs2 =>
    if ip.isEmpty && (cs2.takeWhile Char.isDigit).isEmpty then none
    else some (mantVal ip (cs2.takeWhile Char.isDigit), cs2.dropWhile Char.isDigit)
  | _ => if ip.isEmpty then none else some (mantVal ip [], cs1)

/-- Model of Python's float() constructor on the character list of its
argument: an optional sign, a decimal mantissa (digits with an optional
decimal point, at least one digit), and an optional 'e'/'E' exponent part.
none models the ValueError raised on anything else. Restricted to finite
decimal literals: the inf/nan spellings, digit-group underscores and
surrounding whitespace that Python also accepts are outside the dimension
strings this program deals in. -/
def pyFloatAux (cs : List Char) : Option ℚ :=
  let p := stripSign cs
  match mant? p.2 with
  | none => none
  | some mr =>
    match mr.2 with
    | [] => some (p.1 * mr.1)
    | c :: rest2 =>
      if c = 'e' ∨ c = 'E' then
        match expVal? rest2 with
        | none => none
        | some e => some (p.1 * mr.1 * (10 : ℚ) ^ e)
      else none

/-- Model of Python float() on a string. -/
def pyFloat (s : String) : Option ℚ := pyFloatAux s.data

/-- Model of Python str.split(sep=c, maxsplit=n) on a character list: at most
n splits; once the budget is exhausted the remainder (separators included)
stays in the final part. -/
def pySplitCh (sep : Char) : List Char → Nat → List (List Char)
  | [], _ => [[]]
  | c :: rest, 0 =>
    match pySplitCh sep rest 0 with
    | p :: ps => (c :: p) :: ps
    | [] => [[c]]
  | c :: rest, Nat.succ n =>
    if c = sep then [] :: pySplitCh sep rest n
    else
      match pySplitCh sep rest (Nat.succ n) with
      | p :: ps => (c :: p) :: ps
      | [] => [[c]]

/-- Model of Python str.split(sep, maxsplit) on strings. -/
def pySplit (sep : Char) (maxsplit : Nat) (s : String) : List String :=
  (pySplitCh sep s.data maxsplit).map String.mk

/-! ### _main: size resolution, validation, pipeline (envelope.py 93-141) -/

/-- Explicit width/height in inches. -/
structure Dimensions where
  width : ℚ
  height : ℚ
deriving DecidableEq

/-- ENVELOPE_SIZES.get(size_str, size_str) — table lookup with the token
itself as the default (envelope.py line 131). -/
def lookupSize (s : String) : String :=
  match ENVELOPE_SIZES.find? (fun p => p.1 == s) with
  | some p => p.2
  | none => s

/-- `width, height = size_str.split(sep="x", maxsplit=2)` followed by
`float(width), float(height)` (envelope.py lines 132, 139-140): none models
the ValueError raised on a part count other than two or an unparseable
float. -/
def parseDims (size_str : String) : Option Dimensions :=
  match pySplit 'x' 2 size_str with
  | [w, h] =>
    match pyFloat w, pyFloat h with
    | some wq, some hq => some ⟨wq, hq⟩
    | _, _ => none
  | _ => none

/-- Size resolution of _main: table lookup with pass-through, then parse. -/
def resolveSize (size : String) : Option Dimensions := parseDims (lookupSize size)

/-! ### The tomllib document model and _main's validation -/

/-- A top-level TOML value as _main sees it. Address arrays are modelled at
their string element type (the only element type the program's data model
uses; the validation code never inspects elements). -/
inductive TomlVal where
  | str (s : String)
  | arr (xs : List String)
  | int (n : Int)
  | flt (q : ℚ)
  | boolean (b : Bool)
deriving DecidableEq

/-- in_data.get(key, dflt) on the parsed document. -/
def tomlGet (doc : List (String × TomlVal)) (key : String) (dflt : TomlVal) : TomlVal :=
  match doc.find? (fun p => p.1 == key) with
  | some p => p.2
  | none => dflt

/-- isinstance(v, str). -/
def isStr : TomlVal → Bool
  | TomlVal.str _ => true
  | _ => false

/-- isinstance(v, collections.abc.Sequence): among TOML values, strings and
arrays are Sequences; ints, floats and booleans are not. -/
def isSequence : TomlVal → Bool
  | TomlVal.str _ => true
  | TomlVal.arr _ => true
  | _ => false

/-- Python truthiness of a TOML value: empty string/array, zero and False
are falsy. -/
def truthy : TomlVal → Bool
  | TomlVal.str s => !s.isEmpty
  | TomlVal.arr xs => !xs.isEmpty
  | TomlVal.int n => n != 0
  | TomlVal.flt q => q != 0
  | TomlVal.boolean b => b

/-- The string payload of a value known to be a str. -/
def strOf : TomlVal → String
  | TomlVal.str s => s
  | _ => ""

/-- The lines `for line in addr` iterates over: an array yields its
elements; Python iteration over a string yields its characters as
one-character strings. Non-sequences are rejected by validation before any
iteration. -/
def iterLines : TomlVal → List String
  | TomlVal.str s => s.data.map (fun c => String.mk [c])
  | TomlVal.arr xs => xs
  | _ => []

/-- Outcome of _main on a parsed document. -/
inductive MainResult where
  | typeError
  | valueError
  | ok (out : RenderTrace)
deriving DecidableEq

/-- Embedding of _main after input loading (envelope.py lines 114-141):
fetch size/from/to with their defaults, validate (raise TypeError when the
all(...) check fails), resolve the size token (ValueError on failure), then
render with the default font face and size. -/
def runMain (doc : List (String × TomlVal)) : MainResult :=
  let size := tomlGet doc "size" (TomlVal.str "#10")
  let from_addr := tomlGet doc "from" (TomlVal.arr [])
  let to_addr := tomlGet doc "to" (TomlVal.arr [])
  if isStr size && isSequence from_addr && isSequence to_addr &&
      truthy from_addr && truthy to_addr then
    match resolveSize (strOf size) with
    | none => MainResult.valueError
    | some d =>
        MainResult.ok (write_envelope_pdf (iterLines from_addr) (iterLines to_addr)
          d.width d.height FONT_FACE FONT_SIZE)
  else MainResult.typeError

/-- Where _main reads its input from. -/
inductive InputChoice where
  | builtinDefault
  | fromFile (path : String)
deriving DecidableEq

/-- Embedding of the argument handling of _main (envelope.py lines 108-112):
`if in_file := dict(enumerate(sys.argv)).get(1, "")` — a missing or empty
first argument is falsy, so the built-in default document is kept; the
literal "-" is replaced by /dev/stdin; otherwise the argument is opened as a
file path. -/
def chooseInput (argv1 : Option String) : InputChoice :=
  let in_file := argv1.getD ""
  if in_file.isEmpty then InputChoice.builtinDefault
  else InputChoice.fromFile (if in_file == "-" then "/dev/stdin" else in_file)

/-- The built-in default document of _main (envelope.py lines 94-107). -/
def defaultDoc : List (String × TomlVal) :=
  [ ("size", TomlVal.str "#10"),
    ("from", TomlVal.arr ["E. L. Brown", "1640 Riverside Drive", "Hill Valley, CA 91103"]),
    ("to", TomlVal.arr ["Burton Richter", "c/o SLAC National Laboratory",
      "2575 Sand Hill Rd", "Menlo Park, CA 94025"]) ]

/-! ### The spec's data model, for the determinism statement -/

/-- EnvelopeSpec after size resolution: the two address blocks and the page
dimensions in inches. -/
structure EnvelopeSpec where
  fromAddr : List String
  toAddr : List String
  dims : Dimensions
deriving DecidableEq

/-- RenderConfig: font face and size. -/
structure RenderConfig where
  font_face : String
  font_size : ℚ
deriving DecidableEq

/-- One invocation of write_envelope_pdf on a spec and config. -/
def renderEnvelope (spec : EnvelopeSpec) (cfg : RenderConfig) : RenderTrace :=
  write_envelope_pdf spec.fromAddr spec.toAddr spec.dims.width spec.dims.height
    cfg.font_face cfg.font_size

/-- The characters a string accepted by pyFloat can be made of. -/
def floatChar (c : Char) : Bool :=
  c.isDigit || c == '.' || c == '+' || c == '-' || c == 'e' || c == 'E'

/-! ## Helper lemmas -/

@[simp] theorem toNat_ch0 : ('0' : Char).toNat = 48 := by decide

@[simp] theorem toNat_ch1 : ('1' : Char).toNat = 49 := by decide

@[simp] theorem toNat_ch2 : ('2' : Char).toNat = 50 := by decide

@[simp] theorem toNat_ch3 : ('3' : Char).toNat = 51 := by decide

@[simp] theorem toNat_ch4 : ('4' : Char).toNat = 52 := by decide

@[simp] theorem toNat_ch5 : ('5' : Char).toNat = 53 := by decide

@[simp] theorem toNat_ch6 : ('6' : Char).toNat = 54 := by decide

@[simp] theorem toNat_ch7 : ('7' : Char).toNat = 55 := by decide

@[simp] theorem toNat_ch8 : ('8' : Char).toNat = 56 := by decide

@[simp] theorem toNat_ch9 : ('9' : Char).toNat = 57 := by decide

theorem tp_pair (x y : ℚ) (t : String) (rest : List DrawCmd) :
    textPlacements (DrawCmd.moveTo x y :: DrawCmd.showText t :: rest)
      = (x, y, t) :: textPlacements rest := rfl

theorem tp_sel (f : String) (rest : List DrawCmd) :
    textPlacements (DrawCmd.selectFontFace f :: rest) = textPlacements rest := rfl

theorem tp_set (s : ℚ) (rest : List DrawCmd) :
    textPlacements (DrawCmd.setFontSize s :: rest) = textPlacements rest := rfl

/-- The i-th text placement produced by a drawLines loop started at (x, y):
x is fixed and y advances by one font-size unit per line. -/
theorem tp_drawLines_get :
    ∀ (lines : List String) (x s y : ℚ) (rest : List DrawCmd) (i : Nat)
      (hi : i < lines.length),
      (textPlacements (drawLines x s y lines ++ rest)).get? i
        = some (x, y + i * s, lines.get ⟨i, hi⟩) := by
  intro lines
  induction lines with
  | nil => intro x s y rest i hi; exact absurd hi (by simp)
  | cons l ls ih =>
    intro x s y rest i hi
    cases i with
    | zero => simp [drawLines, tp_pair]
    | succ j =>
      have hj : j < ls.length := by simpa using hi
      have hrec := ih x s (y + s) rest j hj
      simp only [drawLines, List.cons_append, tp_pair, List.get?_cons_succ, hrec,
        List.get_cons_succ]
      congr 2
      push_cast
      ring_nf

/-- Placements after a whole drawLines block: indexing past the block lands
in the remainder of the trace. -/
theorem tp_drawLines_skip :
    ∀ (lines : List String) (x s y : ℚ) (rest : List DrawCmd) (k : Nat),
      (textPlacements (drawLines x s y lines ++ rest)).get? (lines.length + k)
        = (textPlacements rest).get? k := by
  intro lines
  induction lines with
  | nil => intro x s y rest k; simp [drawLines]
  | cons l ls ih =>
    intro x s y rest k
    have harith : ls.length + 1 + k = (ls.length + k) + 1 := by omega
    simp only [drawLines, List.cons_append, tp_pair, List.length_cons, harith,
      List.get?_cons_succ]
    exact ih x s (y + s) rest k

/-- The command list of write_envelope_pdf, in program order. -/
theorem write_cmds (from_addr to_addr : List String) (width height : ℚ)
    (face : String) (s : ℚ) :
    (write_envelope_pdf from_addr to_addr width height face s).cmds
      = DrawCmd.selectFontFace face :: DrawCmd.setFontSize s ::
          (drawLines (0.25 * 72) s (((0.25 : ℚ) * 72) * 1.5 + s) from_addr ++
            (drawLines ((width * 72) * 0.38) s
              ((height * 72) / 2 - (s * (((to_addr.length : ℚ)) - 1) / 2)) to_addr ++
              [DrawCmd.showPage, DrawCmd.flush, DrawCmd.finish])) := rfl

/-! ## Claims -/

/-- C1: for every destination block to_addr with n ≥ 1 lines, page width W
and height H in points (W = width·72, H = height·72) and font size s,
write_envelope_pdf draws line i (0-based, in input order, after the
from-address placements) at x = W·0.38 and y = H/2 − s·(n−1)/2 + i·s; when
n = 1 the single line sits exactly at the vertical midpoint H/2. -/
theorem C1_to_address_placement
    (from_addr to_addr : List String) (width height : ℚ) (face : String) (s : ℚ)
    (i : Nat) (hi : i < to_addr.length) :
    (textPlacements (write_envelope_pdf from_addr to_addr width height face s).cmds).get?
        (from_addr.length + i)
      = some (width * 72 * 0.38,
          height * 72 / 2 - s * ((to_addr.length : ℚ) - 1) / 2 + i * s,
          to_addr.get ⟨i, hi⟩)
    ∧ (to_addr.length = 1 →
        (textPlacements (write_envelope_pdf from_addr to_addr width height face s).cmds).get?
            from_addr.length
          = some (width * 72 * 0.38, height * 72 / 2, to_addr.headI)) := by
  constructor
  · rw [write_cmds, tp_sel, tp_set, tp_drawLines_skip, tp_drawLines_get to_addr _ _ _ _ i hi]
  · intro hn
    rcases to_addr with _ | ⟨a, tl⟩
    · simp at hn
    · rcases tl with _ | ⟨b, tl⟩
      · have h0 := tp_drawLines_get [a] ((width * 72) * 0.38) s
          ((height * 72) / 2 - (s * ((([a] : List String).length : ℚ) - 1) / 2))
          [DrawCmd.showPage, DrawCmd.flush, DrawCmd.finish] 0 (by simp)
        rw [write_cmds, tp_sel, tp_set]
        have hskip := tp_drawLines_skip from_addr (0.25 * 72) s (((0.25 : ℚ) * 72) * 1.5 + s)
          (drawLines ((width * 72) * 0.38) s
            ((height * 72) / 2 - (s * ((([a] : List String).length : ℚ) - 1) / 2)) [a] ++
            [DrawCmd.showPage, DrawCmd.flush, DrawCmd.finish]) 0
        simp only [Nat.add_zero] at hskip
        rw [hskip, h0]
        norm_num
      · simp at hn

/-- C1 witness at a concrete input: a one-line destination on a #10 page at
font size 14 is placed at (259.92, 148.5). -/
theorem C1_witness :
    (textPlacements (write_envelope_pdf ["F"] ["T1"] 9.5 4.125 "mono" 14).cmds).get? 1
      = some (259.92, 148.5, "T1") := by
  have h := (C1_to_address_placement ["F"] ["T1"] 9.5 4.125 "mono" 14 0 (by decide)).1
  norm_num at h ⊢
  exact h

/-- C2: every return-address line i (0-based, in input order) is drawn
left-aligned at x = 18 points (0.25 inch at 72 points per inch) with
baseline y = 1.5·18 + s + i·s from the top edge. -/
theorem C2_from_address_placement
    (from_addr to_addr : List String) (width height : ℚ) (face : String) (s : ℚ)
    (i : Nat) (hi : i < from_addr.length) :
    (textPlacements (write_envelope_pdf from_addr to_addr width height face s).cmds).get? i
      = some (18, 1.5 * 18 + s + i * s, from_addr.get ⟨i, hi⟩) := by
  rw [write_cmds, tp_sel, tp_set, tp_drawLines_get from_addr _ _ _ _ i hi]
  norm_num

/-- C2 witness at a concrete input: the third from-address line of the
built-in return address at font size 14 has baseline (18, 69). -/
theorem C2_witness :
    (textPlacements (write_envelope_pdf
        ["E. L. Brown", "1640 Riverside Drive", "Hill Valley, CA 91103"]
        ["Burton Richter"] 9.5 4.125 "mono" 14).cmds).get? 2
      = some (18, 69, "Hill Valley, CA 91103") := by
  have h := C2_from_address_placement
    ["E. L. Brown", "1640 Riverside Drive", "Hill Valley, CA 91103"]
    ["Burton Richter"] 9.5 4.125 "mono" 14 2 (by decide)
  norm_num at h ⊢
  exact h

/-- C5: the named-size table has exactly 11 entries, "#5" through "#14",
and resolving each key through the Size Resolver yields the same Dimensions
as parsing its documented "WxH" value directly; "#10" resolves to
9.5 × 4.125 inches. -/
theorem C5_table_resolution :
    ENVELOPE_SIZES.length = 11
    ∧ ENVELOPE_SIZES.map Prod.fst
        = ["#5", "#6.25", "#6.75", "#7", "#7.75", "#8.625", "#9", "#10", "#11", "#12", "#14"]
    ∧ (∀ p ∈ ENVELOPE_SIZES, resolveSize p.1 = parseDims p.2)
    ∧ resolveSize "#10" = some ⟨9.5, 4.125⟩ := by
  refine ⟨by decide, by decide, ?_, ?_⟩
  · norm_num +decide [resolveSize, lookupSize, parseDims, pySplit, pySplitCh, pyFloat,
      pyFloatAux, mant?, stripSign, mantVal, digitsVal, ENVELOPE_SIZES]
  · norm_num +decide [resolveSize, lookupSize, parseDims, pySplit, pySplitCh, pyFloat,
      pyFloatAux, mant?, stripSign, mantVal, digitsVal, ENVELOPE_SIZES]

/-- C5 witness: the "#10" table entry, resolved through the Size Resolver,
equals its documented dimension string parsed directly. -/
theorem C5_witness : resolveSize "#10" = parseDims "9.5x4.125" :=
  C5_table_resolution.2.2.1 ("#10", "9.5x4.125") (by decide)

/-- C7: the concrete scenario — size "#10" at font size 14 gives a
684.0 × 297.0 point page; the first from-address baseline is (18.0, 41.0);
with the four-line built-in to-address the destination anchor is
x = 259.92 and the first destination line sits at y = 127.5. -/
theorem C7_concrete_scenario :
    resolveSize "#10" = some ⟨9.5, 4.125⟩
    ∧ (write_envelope_pdf ["E. L. Brown", "1640 Riverside Drive", "Hill Valley, CA 91103"]
        ["Burton Richter", "c/o SLAC National Laboratory", "2575 Sand Hill Rd",
          "Menlo Park, CA 94025"] 9.5 4.125 "mono" 14).surfaceWidth = 684
    ∧ (write_envelope_pdf ["E. L. Brown", "1640 Riverside Drive", "Hill Valley, CA 91103"]
        ["Burton Richter", "c/o SLAC National Laboratory", "2575 Sand Hill Rd",
          "Menlo Park, CA 94025"] 9.5 4.125 "mono" 14).surfaceHeight = 297
    ∧ (textPlacements (write_envelope_pdf
        ["E. L. Brown", "1640 Riverside Drive", "Hill Valley, CA 91103"]
        ["Burton Richter", "c/o SLAC National Laboratory", "2575 Sand Hill Rd",
          "Menlo Park, CA 94025"] 9.5 4.125 "mono" 14).cmds).get? 0
        = some (18, 41, "E. L. Brown")
    ∧ (textPlacements (write_envelope_pdf
        ["E. L. Brown", "1640 Riverside Drive", "Hill Valley, CA 91103"]
        ["Burton Richter", "c/o SLAC National Laboratory", "2575 Sand Hill Rd",
          "Menlo Park, CA 94025"] 9.5 4.125 "mono" 14).cmds).get? 3
        = some (259.92, 127.5, "Burton Richter") := by
  refine ⟨?_, ?_, ?_, ?_, ?_⟩ <;>
    norm_num +decide [resolveSize, lookupSize, parseDims, pySplit, pySplitCh, pyFloat,
      pyFloatAux, mant?, stripSign, mantVal, digitsVal, ENVELOPE_SIZES,
      write_envelope_pdf, drawLines, textPlacements]

/-- C8: rendering is deterministic — the command trace write_envelope_pdf
emits is a function of the EnvelopeSpec and RenderConfig alone (the code
reads no clock, randomness or other ambient state), so two invocations on
equal inputs produce identical output streams. -/
theorem C8_render_deterministic (s1 s2 : EnvelopeSpec) (c1 c2 : RenderConfig)
    (hs : s1 = s2) (hc : c1 = c2) :
    renderEnvelope s1 c1 = renderEnvelope s2 c2 := by
  subst hs; subst hc; rfl

/-- C8 witness: two renders of one concrete spec and config coincide. -/
theorem C8_witness :
    renderEnvelope ⟨["A"], ["B"], ⟨9.5, 4.125⟩⟩ ⟨"mono", 14⟩
      = renderEnvelope ⟨["A"], ["B"], ⟨9.5, 4.125⟩⟩ ⟨"mono", 14⟩ :=
  C8_render_deterministic _ _ _ _ rfl rfl

/-- C10: an empty first command-line argument is falsy, exactly like an
absent argument: no input file is opened and the built-in default document
(size "#10" with the built-in from and to addresses) is rendered. -/
theorem C10_empty_argument :
    chooseInput (some "") = InputChoice.builtinDefault
    ∧ chooseInput none = InputChoice.builtinDefault
    ∧ runMain defaultDoc = MainResult.ok (write_envelope_pdf
        ["E. L. Brown", "1640 Riverside Drive", "Hill Valley, CA 91103"]
        ["Burton Richter", "c/o SLAC National Laboratory", "2575 Sand Hill Rd",
          "Menlo Park, CA 94025"] 9.5 4.125 "mono" 14) := by
  refine ⟨by decide, by decide, ?_⟩
  norm_num +decide [runMain, defaultDoc, tomlGet, isStr, isSequence, truthy, strOf, iterLines,
    resolveSize, lookupSize, parseDims, pySplit, pySplitCh, pyFloat, pyFloatAux,
    mant?, stripSign, mantVal, digitsVal, ENVELOPE_SIZES, FONT_FACE, FONT_SIZE,
    write_envelope_pdf, drawLines]

/-- C4 counterexample: a document with no `size` key at all does not fail
validation — the code substitutes the default "#10" and renders normally,
contradicting the claim that a missing `size` raises a fatal
input-validation error. -/
theorem C4_counterexample :
    runMain [("from", TomlVal.arr ["A"]), ("to", TomlVal.arr ["B"])]
      = MainResult.ok (write_envelope_pdf ["A"] ["B"] 9.5 4.125 "mono" 14) := by
  norm_num +decide [runMain, tomlGet, isStr, isSequence, truthy, strOf, iterLines,
    resolveSize, lookupSize, parseDims, pySplit, pySplitCh, pyFloat, pyFloatAux,
    mant?, stripSign, mantVal, digitsVal, ENVELOPE_SIZES, FONT_FACE, FONT_SIZE,
    write_envelope_pdf, drawLines]

/-- C4 amended: with the defaults applied (`size` missing defaults to
"#10" and is accepted; `from`/`to` missing default to empty arrays), a
document whose size value is not a string, or whose from/to value is not
sequence-like or is empty, makes _main raise the fatal TypeError before any
rendering; in particular the document with size "#10", from = [] and
to = ["A"] fails validation. -/
theorem C4_validation_amended :
    (∀ doc : List (String × TomlVal),
      (¬ isStr (tomlGet doc "size" (TomlVal.str "#10")) = true
        ∨ ¬ isSequence (tomlGet doc "from" (TomlVal.arr [])) = true
        ∨ ¬ isSequence (tomlGet doc "to" (TomlVal.arr [])) = true
        ∨ ¬ truthy (tomlGet doc "from" (TomlVal.arr [])) = true
        ∨ ¬ truthy (tomlGet doc "to" (TomlVal.arr [])) = true) →
      runMain doc = MainResult.typeError)
    ∧ runMain [("size", TomlVal.str "#10"), ("from", TomlVal.arr []), ("to", TomlVal.arr ["A"])]
        = MainResult.typeError := by
  constructor
  · intro doc h
    simp only [runMain]
    split
    · rename_i hcond
      exfalso
      rcases h with h | h | h | h | h <;> simp_all [Bool.and_eq_true]
    · rfl
  · decide

/-- C4 witness: a document whose from value is an integer (not
sequence-like) is rejected with the TypeError. -/
theorem C4_witness :
    runMain [("size", TomlVal.str "#5"), ("from", TomlVal.int 3), ("to", TomlVal.arr ["B"])]
      = MainResult.typeError :=
  C4_validation_amended.1 _ (Or.inr (Or.inl (by decide)))

/-- C9: a non-empty string passed as `from` (or `to`) satisfies the
Sequence isinstance check and is truthy, so validation accepts it, and the
renderer then iterates the string character by character, drawing each
character as its own address line. -/
theorem C9_string_address (s : String) (hs : s ≠ "") :
    isSequence (TomlVal.str s) = true
    ∧ truthy (TomlVal.str s) = true
    ∧ iterLines (TomlVal.str s) = s.data.map (fun c => String.mk [c])
    ∧ runMain [("size", TomlVal.str "#10"), ("from", TomlVal.str s), ("to", TomlVal.arr ["A"])]
        = MainResult.ok (write_envelope_pdf (s.data.map (fun c => String.mk [c])) ["A"]
            9.5 4.125 "mono" 14)
    ∧ runMain [("size", TomlVal.str "#10"), ("from", TomlVal.arr ["A"]), ("to", TomlVal.str s)]
        = MainResult.ok (write_envelope_pdf ["A"] (s.data.map (fun c => String.mk [c]))
            9.5 4.125 "mono" 14) := by
  have hemp : s.isEmpty = false := by
    rcases hb : s.isEmpty with _ | _
    · rfl
    · exact absurd ((String.isEmpty_iff s).mp hb) hs
  refine ⟨rfl, by simp [truthy, hemp], rfl, ?_, ?_⟩ <;>
    norm_num +decide [runMain, tomlGet, isStr, isSequence, truthy, strOf, iterLines,
      resolveSize, lookupSize, parseDims, pySplit, pySplitCh, pyFloat, pyFloatAux,
      mant?, stripSign, mantVal, digitsVal, ENVELOPE_SIZES, FONT_FACE, FONT_SIZE, hemp,
      write_envelope_pdf, drawLines]

/-- C9 witness: the two-character from-string "AB" passes validation and is
rendered as the two one-character lines "A" and "B". -/
theorem C9_witness :
    runMain [("size", TomlVal.str "#10"), ("from", TomlVal.str "AB"), ("to", TomlVal.arr ["A"])]
      = MainResult.ok (write_envelope_pdf ["A", "B"] ["A"] 9.5 4.125 "mono" 14) := by
  have h := (C9_string_address "AB" (by decide)).2.2.2.1
  have hmap : "AB".data.map (fun c => String.mk [c]) = ["A", "B"] := by decide
  rw [hmap] at h
  exact h

theorem pySplitCh_ne_nil (sep : Char) :
    ∀ (cs : List Char) (n : Nat), pySplitCh sep cs n ≠ [] := by
  intro cs
  induction cs with
  | nil => intro n; simp [pySplitCh]
  | cons c rest ih =>
    intro n
    cases n with
    | zero =>
      rcases hrec : pySplitCh sep rest 0 with _ | ⟨p, ps⟩
      · exact absurd hrec (ih 0)
      · simp [pySplitCh, hrec]
    | succ m =>
      by_cases hc : c = sep
      · simp [pySplitCh, hc]
      · rcases hrec : pySplitCh sep rest (m + 1) with _ | ⟨p, ps⟩
        · exact absurd hrec (ih (m + 1))
        · simp [pySplitCh, hc, hrec]

/-- str.split(sep, maxsplit=n) produces min(count, n) + 1 parts. -/
theorem pySplitCh_length (sep : Char) :
    ∀ (cs : List Char) (n : Nat), (pySplitCh sep cs n).length = min (cs.count sep) n + 1 := by
  intro cs
  induction cs with
  | nil => intro n; simp [pySplitCh]
  | cons c rest ih =>
    intro n
    cases n with
    | zero =>
      rcases hrec : pySplitCh sep rest 0 with _ | ⟨p, ps⟩
      · exact absurd hrec (pySplitCh_ne_nil sep rest 0)
      · have h0 := ih 0
        rw [hrec] at h0
        simp at h0
        simp [pySplitCh, hrec, h0]
    | succ m =>
      by_cases hc : c = sep
      · subst hc
        simp [pySplitCh, ih m, List.count_cons, Nat.succ_min_succ]
      · rcases hrec : pySplitCh sep rest (m + 1) with _ | ⟨p, ps⟩
        · exact absurd hrec (pySplitCh_ne_nil sep rest (m + 1))
        · have h1 := ih (m + 1)
          rw [hrec] at h1
          simp at h1
          simp [pySplitCh, hc, hrec, List.count_cons, h1]

/-- On a token that is not a table key, size resolution is the raw
dimension-string parse (the dict.get default passes the token through). -/
theorem resolveSize_not_key {tok : String}
    (hkeys : ∀ p ∈ ENVELOPE_SIZES, p.1 ≠ tok) :
    resolveSize tok = parseDims tok := by
  have hfind : ENVELOPE_SIZES.find? (fun p => p.1 == tok) = none := by
    rw [List.find?_eq_none]
    intro p hp
    simp [hkeys p hp]
  simp [resolveSize, lookupSize, hfind]

/-- C3 counterexample: "-1x4" is not a table key and does not split into
two positive floats (its width part parses to the negative float -1), so by
the claim size resolution must fail — yet the code succeeds, returning
width -1 and height 4: float() is never checked for positivity. -/
theorem C3_counterexample :
    ENVELOPE_SIZES.find? (fun p => p.1 == "-1x4") = none
    ∧ resolveSize "-1x4" = some ⟨-1, 4⟩
    ∧ ¬ (0 : ℚ) < -1 := by
  refine ⟨by decide, ?_, by norm_num⟩
  norm_num +decide [resolveSize, lookupSize, parseDims, pySplit, pySplitCh, pyFloat,
    pyFloatAux, mant?, stripSign, mantVal, digitsVal, ENVELOPE_SIZES]

/-- C3 amended: for every token that is not a table key, size resolution
fails if and only if the token does not split on 'x' (maxsplit 2) into
exactly two substrings that each parse as a float — the sign of the parsed
floats is not checked; "#99" fails with a size-parse error, and any
non-key token containing two or more 'x' separators fails. -/
theorem C3_size_parse_amended :
    resolveSize "#99" = none
    ∧ ∀ tok : String, (∀ p ∈ ENVELOPE_SIZES, p.1 ≠ tok) →
        ((resolveSize tok = none ↔
            ¬ ∃ w h : String, pySplit 'x' 2 tok = [w, h]
              ∧ (pyFloat w).isSome = true ∧ (pyFloat h).isSome = true)
          ∧ (2 ≤ tok.data.count 'x' → resolveSize tok = none)) := by
  constructor
  · decide
  · intro tok hkeys
    constructor
    · rw [resolveSize_not_key hkeys]
      rcases hsp : pySplit 'x' 2 tok with _ | ⟨a, _ | ⟨b, _ | ⟨c, tl⟩⟩⟩
      · simp [parseDims, hsp]
      · simp [parseDims, hsp]
      · rcases hw : pyFloat a with _ | wq <;> rcases hh : pyFloat b with _ | hq <;>
          simp [parseDims, hsp, hw, hh]
      · simp [parseDims, hsp]
    · intro hcount
      rw [resolveSize_not_key hkeys]
      have hlen : (pySplit 'x' 2 tok).length = 3 := by
        simp [pySplit, pySplitCh_length, Nat.min_eq_right hcount]
      rcases hsp : pySplit 'x' 2 tok with _ | ⟨a, _ | ⟨b, _ | ⟨c, tl⟩⟩⟩
      all_goals rw [hsp] at hlen
      · simp at hlen
      · simp at hlen
      · simp at hlen
      · simp [parseDims, hsp]

/-- C3 witness: "1x2x3" is not a table key and contains two 'x'
separators, so size resolution fails on it. -/
theorem C3_witness : resolveSize "1x2x3" = none :=
  ((C3_size_parse_amended.2 "1x2x3" (by decide)).2) (by decide)

theorem digit_floatChar {c : Char} (h : c.isDigit = true) : floatChar c = true := by
  simp [floatChar, h]

/-- A list whose isDigit-dropWhile is empty consists of digits only. -/
theorem all_digits_of_dropWhile_nil {l : List Char}
    (h : l.dropWhile Char.isDigit = []) : ∀ c ∈ l, c.isDigit = true := by
  intro c hc
  have htk := List.takeWhile_append_dropWhile Char.isDigit l
  rw [h, List.append_nil] at htk
  exact List.mem_takeWhile_imp (show c ∈ l.takeWhile Char.isDigit by rwa [htk])

theorem stripSign_cases (cs : List Char) :
    (stripSign cs).2 = cs ∨
      ∃ c0 r, cs = c0 :: r ∧ (c0 = '-' ∨ c0 = '+') ∧ (stripSign cs).2 = r := by
  rcases cs with _ | ⟨c0, r⟩
  · exact Or.inl rfl
  · by_cases h1 : c0 = '-'
    · exact Or.inr ⟨c0, r, rfl, Or.inl h1, by simp [stripSign, h1]⟩
    · by_cases h2 : c0 = '+'
      · exact Or.inr ⟨c0, r, rfl, Or.inr h2, by simp [stripSign, h1, h2]⟩
      · exact Or.inl (by simp [stripSign, h1, h2])

theorem stripExpSign_cases (cs : List Char) :
    (stripExpSign cs).2 = cs ∨
      ∃ c0 r, cs = c0 :: r ∧ (c0 = '-' ∨ c0 = '+') ∧ (stripExpSign cs).2 = r := by
  rcases cs with _ | ⟨c0, r⟩
  · exact Or.inl rfl
  · by_cases h1 : c0 = '-'
    · exact Or.inr ⟨c0, r, rfl, Or.inl h1, by simp [stripExpSign, h1]⟩
    · by_cases h2 : c0 = '+'
      · exact Or.inr ⟨c0, r, rfl, Or.inr h2, by simp [stripExpSign, h1, h2]⟩
      · exact Or.inl (by simp [stripExpSign, h1, h2])

/-- Every character of a string accepted by mant? is a float character or
belongs to the unconsumed remainder. -/
theorem mant?_chars {cs : List Char} {m : ℚ} {rest : List Char}
    (h : mant? cs = some (m, rest)) :
    ∀ c ∈ cs, floatChar c = true ∨ c ∈ rest := by
  intro c hc
  have hsplit := List.takeWhile_append_dropWhile Char.isDigit cs
  rw [← hsplit] at hc
  rcases List.mem_append.mp hc with htk | hdp
  · exact Or.inl (digit_floatChar (List.mem_takeWhile_imp htk))
  · simp only [mant?] at h
    split at h
    · rename_i cs2 heq
      split at h
      · exact absurd h (by simp)
      · simp only [Option.some.injEq, Prod.mk.injEq] at h
        obtain ⟨hm, hrest⟩ := h
        rw [heq] at hdp
        rcases List.mem_cons.mp hdp with rfl | hc2
        · exact Or.inl (by decide)
        · have hsplit2 := List.takeWhile_append_dropWhile Char.isDigit cs2
          rw [← hsplit2] at hc2
          rcases List.mem_append.mp hc2 with htk2 | hdp2
          · exact Or.inl (digit_floatChar (List.mem_takeWhile_imp htk2))
          · exact Or.inr (hrest ▸ hdp2)
    · split at h
      · exact absurd h (by simp)
      · simp only [Option.some.injEq, Prod.mk.injEq] at h
        obtain ⟨hm, hrest⟩ := h
        exact Or.inr (hrest ▸ hdp)

/-- Every character of a string accepted by expVal? is a float character. -/
theorem expVal?_chars {cs : List Char} {e : Int} (h : expVal? cs = some e) :
    ∀ c ∈ cs, floatChar c = true := by
  simp only [expVal?] at h
  split at h
  · exact absurd h (by simp)
  · rename_i hcond
    rw [Bool.or_eq_true, not_or] at hcond
    obtain ⟨hed, hrest⟩ := hcond
    have hrest' : ((stripExpSign cs).2.dropWhile Char.isDigit) = [] := by
      rcases hr : (stripExpSign cs).2.dropWhile Char.isDigit with _ | ⟨a, b⟩
      · rfl
      · rw [hr] at hrest; simp at hrest
    have htail : ∀ c ∈ (stripExpSign cs).2, floatChar c = true := by
      intro c hc
      exact digit_floatChar (all_digits_of_dropWhile_nil hrest' c hc)
    intro c hc
    rcases stripExpSign_cases cs with heq | ⟨c0, r, hcs, hsgn, heq⟩
    · exact htail c (by rwa [heq])
    · subst hcs
      rcases List.mem_cons.mp hc with rfl | hc2
      · rcases hsgn with rfl | rfl <;> decide
      · exact htail c (by rwa [heq])

/-- Every character after the sign of a string accepted by pyFloatAux is a
float character. -/
theorem pyFloatAux_chars_tail {cs : List Char} {q : ℚ} (h : pyFloatAux cs = some q) :
    ∀ c ∈ (stripSign cs).2, floatChar c = true := by
  intro c hc
  simp only [pyFloatAux] at h
  split at h
  · exact absurd h (by simp)
  · rename_i mr hm
    rcases mant?_chars (show mant? (stripSign cs).2 = some (mr.1, mr.2) from hm) c hc
      with hf | hrest
    · exact hf
    · split at h
      · rename_i hnil
        rw [hnil] at hrest
        simp at hrest
      · rename_i c2 rest2 hcons
        rw [hcons] at hrest
        split at h
        · rename_i hc2
          split at h
          · exact absurd h (by simp)
          · rename_i e he
            rcases List.mem_cons.mp hrest with rfl | hc3
            · rcases hc2 with rfl | rfl <;> decide
            · exact expVal?_chars he c hc3
        · exact absurd h (by simp)

/-- Every character of a string accepted by pyFloat is a float character
(a digit, '.', a sign, or an exponent marker). -/
theorem pyFloat_chars {s : String} {q : ℚ} (h : pyFloat s = some q) :
    ∀ c ∈ s.data, floatChar c = true := by
  intro c hc
  rcases stripSign_cases s.data with heq | ⟨c0, r, hcs, hsgn, heq⟩
  · exact pyFloatAux_chars_tail h c (by rwa [heq])
  · rw [hcs] at hc
    rcases List.mem_cons.mp hc with rfl | hc2
    · rcases hsgn with rfl | rfl <;> decide
    · refine pyFloatAux_chars_tail h c ?_
      rw [show (stripSign s.data).2 = r from by rw [hcs] at heq ⊢; exact heq]
      exact hc2

/-- A string accepted by pyFloat is non-empty. -/
theorem pyFloat_ne_empty {s : String} {q : ℚ} (h : pyFloat s = some q) :
    s.data ≠ [] := by
  intro hnil
  have h2 : pyFloatAux ([] : List Char) = some q := by rw [← hnil]; exact h
  rw [show pyFloatAux ([] : List Char) = none from rfl] at h2
  cases h2

/-- Splitting a separator-free list yields one part. -/
theorem pySplitCh_no_sep (sep : Char) :
    ∀ (cs : List Char) (n : Nat), sep ∉ cs → pySplitCh sep cs n = [cs] := by
  intro cs
  induction cs with
  | nil => intro n _; simp [pySplitCh]
  | cons c rest ih =>
    intro n hns
    have hmem : sep ∉ rest := fun hm => hns (List.mem_cons_of_mem c hm)
    have hc : ¬ c = sep := by
      intro hh
      subst hh
      exact hns (List.mem_cons_self _ _)
    cases n with
    | zero =>
      have hrec := ih 0 hmem
      simp [pySplitCh, hrec]
    | succ m =>
      have hrec := ih (m + 1) hmem
      simp [pySplitCh, hc, hrec]

/-- Splitting w ++ sep :: t with separator-free w and t and a positive
maxsplit yields exactly the parts w and t. -/
theorem pySplitCh_one_sep (sep : Char) :
    ∀ (w t : List Char) (n : Nat), sep ∉ w → sep ∉ t →
      pySplitCh sep (w ++ sep :: t) (n + 1) = [w, t] := by
  intro w
  induction w with
  | nil =>
    intro t n _ ht
    simp only [List.nil_append]
    simp [pySplitCh, pySplitCh_no_sep sep t n ht]
  | cons c w2 ih =>
    intro t n hw ht
    have hmem : sep ∉ w2 := fun hm => hw (List.mem_cons_of_mem c hm)
    have hc : ¬ c = sep := by
      intro hh
      subst hh
      exact hw (List.mem_cons_self _ _)
    have hrec := ih t n hmem ht
    simp only [List.cons_append]
    simp [pySplitCh, hc, hrec]

/-- Every key of the size table starts with '#'. -/
theorem table_keys_hash : ∀ p ∈ ENVELOPE_SIZES, p.1.data.head? = some '#' := by decide

/-- C6: every literal "WxH" token made of two positive pyFloat strings is
never a table key (keys start with '#', float representations cannot), so
it passes through the table lookup unchanged and resolves to exactly the
two parsed dimensions. -/
theorem C6_literal_passthrough (w h : String) (wq hq : ℚ)
    (hw : pyFloat w = some wq) (hh : pyFloat h = some hq)
    (_hwpos : 0 < wq) (_hhpos : 0 < hq) :
    (∀ p ∈ ENVELOPE_SIZES, p.1 ≠ w ++ "x" ++ h)
    ∧ resolveSize (w ++ "x" ++ h) = some ⟨wq, hq⟩ := by
  have hdata : (w ++ "x" ++ h).data = w.data ++ 'x' :: h.data := by
    simp [String.data_append]
  have hxw : 'x' ∉ w.data := by
    intro hx
    exact absurd (pyFloat_chars hw 'x' hx) (by decide)
  have hxh : 'x' ∉ h.data := by
    intro hx
    exact absurd (pyFloat_chars hh 'x' hx) (by decide)
  have hwd : w.data ≠ [] := pyFloat_ne_empty hw
  have hkeys : ∀ p ∈ ENVELOPE_SIZES, p.1 ≠ w ++ "x" ++ h := by
    intro p hp heq
    have hhead := table_keys_hash p hp
    rcases hwl : w.data with _ | ⟨c0, t0⟩
    · exact hwd hwl
    · have hc0 : floatChar c0 = true :=
        pyFloat_chars hw c0 (by rw [hwl]; exact List.mem_cons_self _ _)
      have hpd : p.1.data = (w ++ "x" ++ h).data := by rw [heq]
      rw [hdata, hwl] at hpd
      rw [hpd] at hhead
      simp at hhead
      rw [hhead] at hc0
      exact absurd hc0 (by decide)
  refine ⟨hkeys, ?_⟩
  rw [resolveSize_not_key hkeys]
  have hsp : pySplit 'x' 2 (w ++ "x" ++ h) = [w, h] := by
    rw [pySplit, hdata, pySplitCh_one_sep 'x' w.data h.data 1 hxw hxh]
    rfl
  simp [parseDims, hsp, hw, hh]

/-- C6 witness: the literal token "9.5x4.125" resolves to width 9.5 and
height 4.125. -/
theorem C6_witness : resolveSize "9.5x4.125" = some ⟨9.5, 4.125⟩ := by
  have h95 : pyFloat "9.5" = some (9.5 : ℚ) := by
    norm_num +decide [pyFloat, pyFloatAux, mant?, stripSign, mantVal, digitsVal]
  have h4125 : pyFloat "4.125" = some (4.125 : ℚ) := by
    norm_num +decide [pyFloat, pyFloatAux, mant?, stripSign, mantVal, digitsVal]
  have h := (C6_literal_passthrough "9.5" "4.125" 9.5 4.125 h95 h4125
    (by norm_num) (by norm_num)).2
  have heq : ("9.5" ++ "x" ++ "4.125" : String) = "9.5x4.125" := by decide
  rw [heq] at h
  exact h

end EnvelopeVerif
